import Mathlib

/-!
Shallow embedding of `logrus_influxdb.go` (package `logrus_influxdb`), a
logrus hook that forwards log entries to InfluxDB.  Go maps from strings
are modelled as association lists (`mapGet` finds the first binding,
`mapSet` replaces it in place); Go `interface{}` values appearing in an
entry's field mapping are modelled by the inductive `GoValue`; the
external InfluxDB client is modelled as a record of pure functions, and
the shared, mutated-in-place tag map of the hook is modelled by `Fire`
returning the hook with its updated tag map alongside the written point.
-/

namespace LogrusInfluxdb

/-- A Go `interface{}` value stored in a logrus entry's `Data` map or in an
InfluxDB value row: a string, a (possibly nil) `*http.Request` pointer
identified by a numeric handle, the nil interface, or a value of any other
dynamic type. -/
inductive GoValue where
  | str : String → GoValue
  | reqPtr : Option Nat → GoValue
  | nilV : GoValue
  | other : Nat → GoValue
deriving DecidableEq, Repr

/-- A value stored in a point's `Fields` map (`map[string]interface{}`):
the message string, a non-nil `*http.Request` handle, or the entry's whole
`Data` map stored under "extras". -/
inductive FieldValue where
  | str : String → FieldValue
  | request : Nat → FieldValue
  | extras : List (String × GoValue) → FieldValue
deriving DecidableEq, Repr

/-- Go map lookup `v, ok := m[k]` on the association-list model. -/
def mapGet {α : Type} (m : List (String × α)) (k : String) : Option α :=
  match m with
  | [] => none
  | (k', v) :: rest => if k' = k then some v else mapGet rest k

/-- Go map assignment `m[k] = v` on the association-list model: replaces
the binding of `k` if present, otherwise appends it. -/
def mapSet {α : Type} (m : List (String × α)) (k : String) (v : α) : List (String × α) :=
  match m with
  | [] => [(k, v)]
  | (k', v') :: rest => if k' = k then (k, v) :: rest else (k', v') :: mapSet rest k v

/-- The six logrus severity levels accepted by the hook (external type
`logrus.Level`, restricted to the levels `Levels` returns). -/
inductive Level where
  | panic | fatal | error | warn | info | debug
deriving DecidableEq, Repr

/-- Modelled from the spec: the external logrus `Level.String()` method,
the severity's string form (logrus renders `WarnLevel` as "warning"). -/
def Level.string : Level → String
  | .panic => "panic"
  | .fatal => "fatal"
  | .error => "error"
  | .warn => "warning"
  | .info => "info"
  | .debug => "debug"

/-- A logrus `*Entry` as consumed by `Fire`: severity level, message and
the open-ended field mapping `Data`. -/
structure Entry where
  level : Level
  message : String
  data : List (String × GoValue)

/-- An InfluxDB point (`influxdb.Point`): measurement name, tag mapping,
field mapping, timestamp and time precision. -/
structure Point where
  measurement : String
  tags : List (String × String)
  fields : List (String × FieldValue)
  time : Nat
  precision : String
deriving Repr

/-- An `influxdb.BatchPoints` value as built by `Fire`. -/
structure BatchPoints where
  points : List Point
  database : String
  retentionPolicy : String

/-- An `influxql.Row` of a query response; only its `Values` rows are
consulted by this package, so only they are modelled. -/
structure Series where
  values : List (List GoValue)
deriving Repr

/-- An `influxdb.Result`: its `Series` slice (`none` models a nil slice). -/
structure Result where
  series : Option (List Series)
deriving Repr

/-- An `influxdb.Response`: its `Results` slice (`none` models a nil
slice) and the error reported by the external accessor `Response.Error()`. -/
structure Response where
  results : Option (List Result)
  err : Option String

/-- Modelled from the spec: the external client's `Response.Error()`
accessor, the response-level error of a query response. -/
def Response.error (r : Response) : Option String :=
  r.err

/-- The external `*influxdb.Client`, modelled as the two RPC capabilities
this package invokes on it: `Query(Query{Command, Database})`, whose
`Except` error models a non-nil transport error, and `Write(BatchPoints)`,
of which only the returned error is consumed. -/
structure Client where
  query : String → String → Except String Response
  write : BatchPoints → Option String

/-- The hook: client handle, target database name and default tag map. -/
structure InfulxDBHook where
  client : Client
  database : String
  tags : List (String × String)

/-- The constant `DefaultHost`. -/
def DefaultHost : String := "localhost"

/-- The constant `DefaultDatabase`. -/
def DefaultDatabase : String := "logrus"

/-- The function `getField`: returns the value under `key` in the entry's data when it
is present and string-typed, `none` otherwise. -/
def getField (d : List (String × GoValue)) (key : String) : Option String :=
  match mapGet d key with
  | none => none
  | some v =>
    match v with
    | GoValue.str val => some val
    | _ => none

/-- The function `getRequest`: returns the value under `key` when it is present, is a
`*http.Request`, and that pointer is non-nil; `none` otherwise. -/
def getRequest (d : List (String × GoValue)) (key : String) : Option Nat :=
  match mapGet d key with
  | none => none
  | some v =>
    match v with
    | GoValue.reqPtr (some req) => some req
    | _ => none

/-- The method `Fire`: builds one point from the entry and writes it.  The point's
tag map is the hook's own tag map (shared by reference in the source), so
the hook is returned with the tag map as `Fire` left it; the result also
carries the written point and the returned error. -/
def InfulxDBHook.Fire (hook : InfulxDBHook) (entry : Entry) (now : Nat) :
    InfulxDBHook × Point × Option String :=
  let point : Point :=
    { measurement := "logrus"
      tags := hook.tags
      fields := [("message", FieldValue.str entry.message)]
      time := now
      precision := "s" }
  let point := { point with tags := mapSet point.tags "level" entry.level.string }
  let point :=
    match getField entry.data "logger" with
    | some logger => { point with tags := mapSet point.tags "logger" logger }
    | none => point
  let point :=
    match getField entry.data "server_name" with
    | some serverName => { point with tags := mapSet point.tags "server_name" serverName }
    | none => point
  let point :=
    match getRequest entry.data "http_request" with
    | some req => { point with fields := mapSet point.fields "http_request" (FieldValue.request req) }
    | none => point
  let point := { point with fields := mapSet point.fields "extras" (FieldValue.extras entry.data) }
  let err := hook.client.write ⟨[point], hook.database, "default"⟩
  ({ hook with tags := point.tags }, point, err)

/-- The method `queryDB`: issues `cmd` against the configured database; fails when
the client call errs or the response reports an error, otherwise yields
the response's `Results`.  The first component records the command issued
to the client, so that the statements a sequence of calls sends can be
observed. -/
def InfulxDBHook.queryDB (hook : InfulxDBHook) (cmd : String) :
    List String × Except String (Option (List Result)) :=
  ([cmd],
    match hook.client.query cmd hook.database with
    | Except.error e => Except.error e
    | Except.ok response =>
      match response.error with
      | some e => Except.error e
      | none => Except.ok response.results)

/-- The method `databaseExists`: queries `SHOW DATABASES` and succeeds (returns no
error) exactly when some string cell of the first result's first series'
value rows equals the configured database name.  Paired with the list of
commands issued. -/
def InfulxDBHook.databaseExists (hook : InfulxDBHook) : List String × Option String :=
  let q := hook.queryDB "SHOW DATABASES"
  (q.1,
    match q.2 with
    | Except.error e => some e
    | Except.ok results =>
      match results with
      | none => some "Missing results from InfluxDB query response"
      | some rs =>
        match rs with
        | [] => some "Missing results from InfluxDB query response"
        | r0 :: _ =>
          match r0.series with
          | none => some "Missing series from InfluxDB query response"
          | some ss =>
            match ss with
            | [] => some "Missing series from InfluxDB query response"
            | s0 :: _ =>
              if s0.values.any (fun value => value.any (fun val =>
                  match val with
                  | GoValue.str v => v = hook.database
                  | _ => false))
              then none
              else some "No database exists")

/-- The method `autocreateDatabase`: checks existence and, only when the check fails,
issues `create database <name>`, propagating that statement's failure.
Paired with the list of commands issued. -/
def InfulxDBHook.autocreateDatabase (hook : InfulxDBHook) : List String × Option String :=
  let ex := hook.databaseExists
  match ex.2 with
  | none => (ex.1, none)
  | some _ =>
    let q := hook.queryDB ("create database " ++ hook.database)
    (ex.1 ++ q.1,
      match q.2 with
      | Except.error e => some e
      | Except.ok _ => none)

/-- The external URL-parse / `influxdb.NewClient` / `Ping` sequence of the
construct-and-connect path, modelled as an environment: `newClient` maps a
hostname to a client (or the URL-parse / construction error) and `ping`
reports the liveness probe's error. -/
structure ConnEnv where
  newClient : String → Except String Client
  ping : Client → Option String

/-- The constructor `NewInfluxDBHook`: substitutes the default database name for an empty
one and an empty tag map for a nil one, builds and pings a client via the
environment, then runs `autocreateDatabase`; any failure is returned. -/
def NewInfluxDBHook (env : ConnEnv) (hostname : String) (database : String)
    (tags : Option (List (String × String))) : Except String InfulxDBHook :=
  let database := if database = "" then DefaultDatabase else database
  let tags :=
    match tags with
    | none => []
    | some t => t
  match env.newClient hostname with
  | Except.error e => Except.error e
  | Except.ok client =>
    match env.ping client with
    | some e => Except.error e
    | none =>
      let hook : InfulxDBHook := ⟨client, database, tags⟩
      match hook.autocreateDatabase.2 with
      | some e => Except.error e
      | none => Except.ok hook

/-- The constructor `NewWithClientInfulxDBHook`: same default substitution; with a nil
client it delegates to `NewInfluxDBHook` on the default host, otherwise it
wraps the given client directly. -/
def NewWithClientInfulxDBHook (env : ConnEnv) (client : Option Client) (database : String)
    (tags : Option (List (String × String))) : Except String InfulxDBHook :=
  let database := if database = "" then DefaultDatabase else database
  let tags :=
    match tags with
    | none => []
    | some t => t
  match client with
  | none => NewInfluxDBHook env DefaultHost database (some tags)
  | some c => Except.ok ⟨c, database, tags⟩

/-- The method `Levels`: the fixed list of severities the hook accepts. -/
def InfulxDBHook.Levels (_ : InfulxDBHook) : List Level :=
  [Level.panic, Level.fatal, Level.error, Level.warn, Level.info, Level.debug]

/-- Looking up the key just set. -/
theorem mapGet_mapSet_same {α : Type} (m : List (String × α)) (k : String) (v : α) :
    mapGet (mapSet m k v) k = some v := by
  induction m with
  | nil => simp [mapGet, mapSet]
  | cons hd tl ih =>
    obtain ⟨k', v'⟩ := hd
    by_cases h : k' = k
    · simp [mapGet, mapSet, h]
    · simp [mapGet, mapSet, h, ih]

/-- Setting one key leaves lookups of other keys unchanged. -/
theorem mapGet_mapSet_ne {α : Type} (m : List (String × α)) (k k' : String) (v : α)
    (h : k ≠ k') : mapGet (mapSet m k v) k' = mapGet m k' := by
  induction m with
  | nil => simp [mapGet, mapSet, h]
  | cons hd tl ih =>
    obtain ⟨k0, v0⟩ := hd
    by_cases h0 : k0 = k
    · subst h0
      simp [mapGet, mapSet, h]
    · simp [mapGet, mapSet, h0, ih]

/-- The tag map `Fire` leaves in the hook is the written point's tag map
(the source mutates the shared map in place). -/
theorem fire_fst_tags (hook : InfulxDBHook) (entry : Entry) (now : Nat) :
    (hook.Fire entry now).1.tags = (hook.Fire entry now).2.1.tags := by
  cases h1 : getField entry.data "logger" <;>
  cases h2 : getField entry.data "server_name" <;>
  cases h3 : getRequest entry.data "http_request" <;>
  simp [InfulxDBHook.Fire, h1, h2, h3]

/-- The written point's "level" tag is always the entry's level string. -/
theorem fire_tags_level (hook : InfulxDBHook) (entry : Entry) (now : Nat) :
    mapGet (hook.Fire entry now).2.1.tags "level" = some entry.level.string := by
  cases h1 : getField entry.data "logger" <;>
  cases h2 : getField entry.data "server_name" <;>
  cases h3 : getRequest entry.data "http_request" <;>
  simp [InfulxDBHook.Fire, h1, h2, h3] <;>
  first
    | rw [mapGet_mapSet_ne _ "server_name" "level" _ (by decide),
          mapGet_mapSet_ne _ "logger" "level" _ (by decide), mapGet_mapSet_same]
    | rw [mapGet_mapSet_ne _ "server_name" "level" _ (by decide), mapGet_mapSet_same]
    | rw [mapGet_mapSet_ne _ "logger" "level" _ (by decide), mapGet_mapSet_same]
    | rw [mapGet_mapSet_same]

/-- The written point's "logger" tag: the entry's string value at "logger"
when present, otherwise whatever the hook's tag map already held. -/
theorem fire_tags_logger (hook : InfulxDBHook) (entry : Entry) (now : Nat) :
    mapGet (hook.Fire entry now).2.1.tags "logger" =
      (match getField entry.data "logger" with
       | some l => some l
       | none => mapGet hook.tags "logger") := by
  cases h1 : getField entry.data "logger" <;>
  cases h2 : getField entry.data "server_name" <;>
  cases h3 : getRequest entry.data "http_request" <;>
  simp [InfulxDBHook.Fire, h1, h2, h3] <;>
  first
    | rw [mapGet_mapSet_ne _ "server_name" "logger" _ (by decide), mapGet_mapSet_same]
    | rw [mapGet_mapSet_ne _ "server_name" "logger" _ (by decide),
          mapGet_mapSet_ne _ "level" "logger" _ (by decide)]
    | rw [mapGet_mapSet_same]
    | rw [mapGet_mapSet_ne _ "level" "logger" _ (by decide)]

/-- The written point's "server_name" tag: the entry's string value at
"server_name" when present, otherwise whatever the hook's tag map held. -/
theorem fire_tags_server_name (hook : InfulxDBHook) (entry : Entry) (now : Nat) :
    mapGet (hook.Fire entry now).2.1.tags "server_name" =
      (match getField entry.data "server_name" with
       | some s => some s
       | none => mapGet hook.tags "server_name") := by
  cases h1 : getField entry.data "logger" <;>
  cases h2 : getField entry.data "server_name" <;>
  cases h3 : getRequest entry.data "http_request" <;>
  simp [InfulxDBHook.Fire, h1, h2, h3] <;>
  first
    | rw [mapGet_mapSet_same]
    | rw [mapGet_mapSet_ne _ "logger" "server_name" _ (by decide),
          mapGet_mapSet_ne _ "level" "server_name" _ (by decide)]
    | rw [mapGet_mapSet_ne _ "level" "server_name" _ (by decide)]

/-- The written point's "http_request" field: present exactly when
`getRequest` yields a non-nil request handle. -/
theorem fire_fields_http_request (hook : InfulxDBHook) (entry : Entry) (now : Nat) :
    mapGet (hook.Fire entry now).2.1.fields "http_request" =
      (match getRequest entry.data "http_request" with
       | some r => some (FieldValue.request r)
       | none => none) := by
  cases h1 : getField entry.data "logger" <;>
  cases h2 : getField entry.data "server_name" <;>
  cases h3 : getRequest entry.data "http_request" <;>
  simp [InfulxDBHook.Fire, h1, h2, h3] <;>
  first
    | rw [mapGet_mapSet_ne _ "extras" "http_request" _ (by decide), mapGet_mapSet_same]
    | · rw [mapGet_mapSet_ne _ "extras" "http_request" _ (by decide)]
        simp [mapGet]

/-- The written point's "extras" field always holds the entry's data map. -/
theorem fire_fields_extras (hook : InfulxDBHook) (entry : Entry) (now : Nat) :
    mapGet (hook.Fire entry now).2.1.fields "extras" =
      some (FieldValue.extras entry.data) := by
  cases h1 : getField entry.data "logger" <;>
  cases h2 : getField entry.data "server_name" <;>
  cases h3 : getRequest entry.data "http_request" <;>
  simp [InfulxDBHook.Fire, h1, h2, h3] <;>
  rw [mapGet_mapSet_same]

/-- The method `Fire` returns exactly the error of the single write it issues. -/
theorem fire_err_eq (hook : InfulxDBHook) (entry : Entry) (now : Nat) :
    (hook.Fire entry now).2.2 =
      hook.client.write ⟨[(hook.Fire entry now).2.1], hook.database, "default"⟩ := by
  cases h1 : getField entry.data "logger" <;>
  cases h2 : getField entry.data "server_name" <;>
  cases h3 : getRequest entry.data "http_request" <;>
  simp [InfulxDBHook.Fire, h1, h2, h3]

/-- A client whose calls are never consulted by the point-construction
side of `Fire`; used to build concrete hooks. -/
def noopClient : Client :=
  ⟨fun _ _ => Except.error "unused", fun _ => none⟩

/-- A hook with an empty default tag map. -/
def hookEmptyTags : InfulxDBHook :=
  ⟨noopClient, "logrus", []⟩

/-- A hook whose construction-time default tag map already binds "level",
"logger" and "server_name". -/
def hookPresetTags : InfulxDBHook :=
  ⟨noopClient, "logrus", [("level", "preset"), ("logger", "preset"), ("server_name", "preset")]⟩

/-- C1: for every log event, the point written by Fire has a field
"extras" equal, key for key and value for value, to the event's entire
input field mapping, regardless of the mapping's contents. -/
theorem fire_extras_equals_entry_data (hook : InfulxDBHook) (entry : Entry) (now : Nat) :
    ∃ d, mapGet (hook.Fire entry now).2.1.fields "extras" = some (FieldValue.extras d) ∧
      d = entry.data ∧ ∀ k, mapGet d k = mapGet entry.data k := by
  exact ⟨entry.data, fire_fields_extras hook entry now, rfl, fun _ => rfl⟩

/-- C2: for every log event with a severity drawn from the six recognized
severities, the point written by Fire carries a tag "level" equal to that
severity's string form. -/
theorem fire_level_tag_is_level_string (hook : InfulxDBHook) (entry : Entry) (now : Nat) :
    entry.level ∈ hook.Levels ∧
      mapGet (hook.Fire entry now).2.1.tags "level" = some entry.level.string := by
  refine ⟨?_, fire_tags_level hook entry now⟩
  cases entry.level <;> simp [InfulxDBHook.Levels]

/-- C3 counterexample: on a hook whose default tag map already binds
"logger", an event whose field mapping lacks the key "logger" still
produces a point whose "logger" tag is set (to the default value), so the
tag is not unset as the claim states. -/
theorem fire_unset_logger_tag_counterexample :
    getField ([] : List (String × GoValue)) "logger" = none ∧
      mapGet (hookPresetTags.Fire ⟨Level.info, "m", []⟩ 0).2.1.tags "logger" = some "preset" := by
  constructor
  · rfl
  · rfl

/-- C3 amended: if the event's field mapping contains a string at "logger"
(resp. "server_name"), the written point's corresponding tag equals that
string; if the key is absent or holds a non-string value, the tag on the
written point equals the hook's current default tag map entry for that
name — in particular it is unset whenever the default tag map lacks it. -/
theorem fire_logger_server_name_tag_rules (hook : InfulxDBHook) (entry : Entry) (now : Nat) :
    (∀ l, getField entry.data "logger" = some l →
      mapGet (hook.Fire entry now).2.1.tags "logger" = some l) ∧
    (getField entry.data "logger" = none →
      mapGet (hook.Fire entry now).2.1.tags "logger" = mapGet hook.tags "logger") ∧
    (∀ s, getField entry.data "server_name" = some s →
      mapGet (hook.Fire entry now).2.1.tags "server_name" = some s) ∧
    (getField entry.data "server_name" = none →
      mapGet (hook.Fire entry now).2.1.tags "server_name" = mapGet hook.tags "server_name") := by
  refine ⟨fun l hl => ?_, fun hl => ?_, fun s hs => ?_, fun hs => ?_⟩
  · rw [fire_tags_logger, hl]
  · rw [fire_tags_logger, hl]
  · rw [fire_tags_server_name, hs]
  · rw [fire_tags_server_name, hs]

/-- C3 witness: on a hook with no default tags, an event carrying strings
at "logger" and "server_name" yields those tags, and an event lacking
them leaves both tags unset. -/
theorem fire_logger_server_name_tag_rules_witness :
    mapGet (hookEmptyTags.Fire ⟨Level.warn, "disk low",
        [("logger", GoValue.str "diskmon"), ("server_name", GoValue.str "db1")]⟩ 0).2.1.tags
      "logger" = some "diskmon" ∧
    mapGet (hookEmptyTags.Fire ⟨Level.warn, "disk low",
        [("logger", GoValue.str "diskmon"), ("server_name", GoValue.str "db1")]⟩ 0).2.1.tags
      "server_name" = some "db1" ∧
    mapGet (hookEmptyTags.Fire ⟨Level.info, "m", [("logger", GoValue.other 7)]⟩ 0).2.1.tags
      "logger" = none ∧
    mapGet (hookEmptyTags.Fire ⟨Level.info, "m", [("logger", GoValue.other 7)]⟩ 0).2.1.tags
      "server_name" = none := by
  refine ⟨(fire_logger_server_name_tag_rules hookEmptyTags _ 0).1 "diskmon" (by decide),
    (fire_logger_server_name_tag_rules hookEmptyTags _ 0).2.2.1 "db1" (by decide),
    ?_, ?_⟩
  · rw [(fire_logger_server_name_tag_rules hookEmptyTags _ 0).2.1 (by decide)]
    rfl
  · rw [(fire_logger_server_name_tag_rules hookEmptyTags _ 0).2.2.2 (by decide)]
    rfl

/-- C4: the written point's field "http_request" is set to the handle
exactly when the event maps "http_request" to a non-nil request handle;
when the key maps to a nil handle, a non-request value, or is absent, the
field is unset; and no error arises in those cases: Fire's returned error
is exactly that of the single write it issues. -/
theorem fire_http_request_field_rules (hook : InfulxDBHook) (entry : Entry) (now : Nat) :
    (∀ r, getRequest entry.data "http_request" = some r →
      mapGet (hook.Fire entry now).2.1.fields "http_request" = some (FieldValue.request r)) ∧
    (getRequest entry.data "http_request" = none →
      mapGet (hook.Fire entry now).2.1.fields "http_request" = none) ∧
    (hook.Fire entry now).2.2 =
      hook.client.write ⟨[(hook.Fire entry now).2.1], hook.database, "default"⟩ := by
  refine ⟨fun r hr => ?_, fun hr => ?_, fire_err_eq hook entry now⟩
  · rw [fire_fields_http_request, hr]
  · rw [fire_fields_http_request, hr]

/-- C4 witness: a non-nil request handle at "http_request" is copied into
the field; a nil handle, a non-request value, and absence all leave the
field unset. -/
theorem fire_http_request_field_rules_witness :
    mapGet (hookEmptyTags.Fire ⟨Level.info, "m",
        [("http_request", GoValue.reqPtr (some 5))]⟩ 0).2.1.fields "http_request" =
      some (FieldValue.request 5) ∧
    mapGet (hookEmptyTags.Fire ⟨Level.info, "m",
        [("http_request", GoValue.reqPtr none)]⟩ 0).2.1.fields "http_request" = none ∧
    mapGet (hookEmptyTags.Fire ⟨Level.info, "m",
        [("http_request", GoValue.str "nope")]⟩ 0).2.1.fields "http_request" = none ∧
    mapGet (hookEmptyTags.Fire ⟨Level.info, "m", []⟩ 0).2.1.fields "http_request" = none := by
  refine ⟨(fire_http_request_field_rules hookEmptyTags _ 0).1 5 (by decide), ?_, ?_, ?_⟩
  · rw [(fire_http_request_field_rules hookEmptyTags _ 0).2.1 (by decide)]
  · rw [(fire_http_request_field_rules hookEmptyTags _ 0).2.1 (by decide)]
  · rw [(fire_http_request_field_rules hookEmptyTags _ 0).2.1 (by decide)]

/-- C8: Fire returns the write call's error unchanged when the write
fails and nil when it succeeds; the returned error is exactly the error
of the single write issued, so no error is suppressed. -/
theorem fire_propagates_write_error (hook : InfulxDBHook) (entry : Entry) (now : Nat) :
    (hook.Fire entry now).2.2 =
      hook.client.write ⟨[(hook.Fire entry now).2.1], hook.database, "default"⟩ ∧
    (∀ e, hook.client.write ⟨[(hook.Fire entry now).2.1], hook.database, "default"⟩ = some e →
      (hook.Fire entry now).2.2 = some e) ∧
    (hook.client.write ⟨[(hook.Fire entry now).2.1], hook.database, "default"⟩ = none →
      (hook.Fire entry now).2.2 = none) := by
  refine ⟨fire_err_eq hook entry now, fun e he => ?_, fun hn => ?_⟩
  · rw [fire_err_eq hook entry now, he]
  · rw [fire_err_eq hook entry now, hn]

/-- C8 witness: a hook whose client's write succeeds makes Fire return
nil, and a hook whose client's write fails makes Fire return that very
error. -/
theorem fire_propagates_write_error_witness :
    (hookEmptyTags.Fire ⟨Level.info, "m", []⟩ 0).2.2 = none ∧
    ((InfulxDBHook.mk ⟨fun _ _ => Except.error "unused", fun _ => some "write failed"⟩
        "logrus" []).Fire ⟨Level.info, "m", []⟩ 0).2.2 = some "write failed" :=
  ⟨(fire_propagates_write_error hookEmptyTags ⟨Level.info, "m", []⟩ 0).2.2 rfl,
    (fire_propagates_write_error
      (InfulxDBHook.mk ⟨fun _ _ => Except.error "unused", fun _ => some "write failed"⟩
        "logrus" []) ⟨Level.info, "m", []⟩ 0).2.1 "write failed" rfl⟩

/-- C9: Fire uses the hook's tag map itself as the point's tags and
leaves the injected tags in it, so tags derived from an earlier event
("logger", "server_name", and a "level" binding) persist in the hook and
appear on the point written by a later Fire call whose event lacks those
keys. -/
theorem fire_tag_map_persistence (hook : InfulxDBHook) (e1 e2 : Entry) (t1 t2 : Nat)
    (l s : String)
    (hl1 : getField e1.data "logger" = some l)
    (hl2 : getField e2.data "logger" = none)
    (hs1 : getField e1.data "server_name" = some s)
    (hs2 : getField e2.data "server_name" = none) :
    (hook.Fire e1 t1).1.tags = (hook.Fire e1 t1).2.1.tags ∧
    mapGet (hook.Fire e1 t1).1.tags "logger" = some l ∧
    mapGet ((hook.Fire e1 t1).1.Fire e2 t2).2.1.tags "logger" = some l ∧
    mapGet ((hook.Fire e1 t1).1.Fire e2 t2).2.1.tags "server_name" = some s ∧
    (mapGet ((hook.Fire e1 t1).1.Fire e2 t2).2.1.tags "level").isSome = true := by
  have htags : mapGet (hook.Fire e1 t1).1.tags "logger" = some l := by
    rw [fire_fst_tags, fire_tags_logger, hl1]
  have hstags : mapGet (hook.Fire e1 t1).1.tags "server_name" = some s := by
    rw [fire_fst_tags, fire_tags_server_name, hs1]
  refine ⟨fire_fst_tags hook e1 t1, htags, ?_, ?_, ?_⟩
  · rw [fire_tags_logger, hl2]
    exact htags
  · rw [fire_tags_server_name, hs2]
    exact hstags
  · rw [fire_tags_level]
    rfl

/-- C9 witness: firing an event with "logger" and "server_name" strings,
then firing an event without them on the resulting hook, still yields a
point tagged with the earlier values. -/
theorem fire_tag_map_persistence_witness :
    mapGet ((hookEmptyTags.Fire ⟨Level.warn, "disk low",
        [("logger", GoValue.str "diskmon"), ("server_name", GoValue.str "db1")]⟩ 0).1.Fire
        ⟨Level.info, "later", []⟩ 1).2.1.tags "logger" = some "diskmon" ∧
    mapGet ((hookEmptyTags.Fire ⟨Level.warn, "disk low",
        [("logger", GoValue.str "diskmon"), ("server_name", GoValue.str "db1")]⟩ 0).1.Fire
        ⟨Level.info, "later", []⟩ 1).2.1.tags "server_name" = some "db1" := by
  refine ⟨(fire_tag_map_persistence hookEmptyTags _ _ 0 1 "diskmon" "db1"
      (by decide) (by decide) (by decide) (by decide)).2.2.1,
    (fire_tag_map_persistence hookEmptyTags _ _ 0 1 "diskmon" "db1"
      (by decide) (by decide) (by decide) (by decide)).2.2.2.1⟩

/-- C10: Fire overwrites caller-supplied construction-time defaults: when
the hook's tag map already binds "level", the written point's "level" tag
is the event's level string (not the preset value when they differ), and
a preset "logger"/"server_name" is overwritten by the event's string at
that field when supplied. -/
theorem fire_overwrites_preset_tags (hook : InfulxDBHook) (entry : Entry) (now : Nat)
    (v : String) (_hv : mapGet hook.tags "level" = some v) :
    mapGet (hook.Fire entry now).2.1.tags "level" = some entry.level.string ∧
    (v ≠ entry.level.string → mapGet (hook.Fire entry now).2.1.tags "level" ≠ some v) ∧
    (∀ w l, mapGet hook.tags "logger" = some w → getField entry.data "logger" = some l →
      mapGet (hook.Fire entry now).2.1.tags "logger" = some l) ∧
    (∀ w s, mapGet hook.tags "server_name" = some w →
      getField entry.data "server_name" = some s →
      mapGet (hook.Fire entry now).2.1.tags "server_name" = some s) := by
  refine ⟨fire_tags_level hook entry now, fun hne => ?_, fun w l _ hl => ?_, fun w s _ hs => ?_⟩
  · rw [fire_tags_level]
    simp
    exact fun h => hne h.symm
  · rw [fire_tags_logger, hl]
  · rw [fire_tags_server_name, hs]

/-- C10 witness: a hook preconfigured with "level", "logger" and
"server_name" tags has all three overwritten by a warn-level event
supplying logger and server_name strings. -/
theorem fire_overwrites_preset_tags_witness :
    mapGet (hookPresetTags.Fire ⟨Level.warn, "disk low",
        [("logger", GoValue.str "diskmon"), ("server_name", GoValue.str "db1")]⟩ 0).2.1.tags
      "level" = some "warning" ∧
    mapGet (hookPresetTags.Fire ⟨Level.warn, "disk low",
        [("logger", GoValue.str "diskmon"), ("server_name", GoValue.str "db1")]⟩ 0).2.1.tags
      "logger" = some "diskmon" := by
  refine ⟨(fire_overwrites_preset_tags hookPresetTags _ 0 "preset" (by decide)).1, ?_⟩
  exact (fire_overwrites_preset_tags hookPresetTags _ 0 "preset" (by decide)).2.2.1
    "preset" "diskmon" (by decide) (by decide)

/-- The cell loop of `databaseExists`: some cell of some value row is a
string equal to the database name. -/
theorem any_cell_matches_iff (db : String) (rows : List (List GoValue)) :
    (rows.any (fun value => value.any (fun val =>
      match val with
      | GoValue.str v => v = db
      | _ => false))) = true ↔
      ∃ row ∈ rows, ∃ cell ∈ row, cell = GoValue.str db := by
  simp only [List.any_eq_true]
  constructor
  · rintro ⟨row, hrow, cell, hcell, hm⟩
    refine ⟨row, hrow, cell, hcell, ?_⟩
    cases cell <;> simp_all
  · rintro ⟨row, hrow, cell, hcell, rfl⟩
    exact ⟨row, hrow, GoValue.str db, hcell, by simp⟩

/-- C5: the existence check succeeds exactly when the SHOW DATABASES
query succeeds and some string-typed cell among the value rows of the
first result's first series equals the configured database name; every
other shape (query failure, no results, no series, no matching cell)
yields an error, and all of those errors are plain strings of the same
type, not distinguished variants. -/
theorem databaseExists_success_iff_match (hook : InfulxDBHook) :
    hook.databaseExists.2 = none ↔
      ∃ r0 rrest s0 srest,
        (hook.queryDB "SHOW DATABASES").2 = Except.ok (some (r0 :: rrest)) ∧
        r0.series = some (s0 :: srest) ∧
        ∃ row ∈ s0.values, ∃ cell ∈ row, cell = GoValue.str hook.database := by
  cases hq : (hook.queryDB "SHOW DATABASES").2 with
  | error e => simp [InfulxDBHook.databaseExists, hq]
  | ok results =>
    cases results with
    | none => simp [InfulxDBHook.databaseExists, hq]
    | some rs =>
      cases rs with
      | nil => simp [InfulxDBHook.databaseExists, hq]
      | cons r0 rest =>
        cases hs : r0.series with
        | none => simp [InfulxDBHook.databaseExists, hq, hs]
        | some ss =>
          cases ss with
          | nil => simp [InfulxDBHook.databaseExists, hq, hs]
          | cons s0 srest =>
            simp only [InfulxDBHook.databaseExists, hq, hs]
            by_cases hm : (s0.values.any (fun value => value.any (fun val =>
                match val with
                | GoValue.str v => v = hook.database
                | _ => false))) = true
            · simp only [hm, if_true]
              obtain ⟨row, hrow, cell, hcell, hc⟩ := (any_cell_matches_iff _ _).mp hm
              simp only [true_iff, eq_self_iff_true]
              exact ⟨r0, rest, s0, srest, rfl, hs, row, hrow, cell, hcell, hc⟩
            · simp only [hm, if_false]
              constructor
              · intro h
                exact absurd h (by simp)
              · rintro ⟨r0', rrest', s0', srest', hq', hs', row, hrow, cell, hcell, hc⟩
                rw [Except.ok.injEq, Option.some.injEq, List.cons.injEq] at hq'
                obtain ⟨he0, -⟩ := hq'
                rw [← he0] at hs'
                rw [hs, Option.some.injEq, List.cons.injEq] at hs'
                obtain ⟨hse, -⟩ := hs'
                exact absurd ((any_cell_matches_iff _ _).mpr
                  ⟨row, by rw [hse]; exact hrow, cell, hcell, hc⟩) hm

/-- C5 witness: with a client whose SHOW DATABASES response carries a
series row containing the string "logrus", the check on a hook for
database "logrus" succeeds. -/
theorem databaseExists_success_iff_match_witness :
    (InfulxDBHook.mk
      ⟨fun _ _ => Except.ok ⟨some [⟨some [⟨[[GoValue.str "logrus"]]⟩]⟩], none⟩, fun _ => none⟩
      "logrus" []).databaseExists.2 = none := by
  exact (databaseExists_success_iff_match _).mpr
    ⟨⟨some [⟨[[GoValue.str "logrus"]]⟩]⟩, [], ⟨[[GoValue.str "logrus"]]⟩, [], rfl, rfl,
      [GoValue.str "logrus"], by simp, GoValue.str "logrus", by simp, rfl⟩

/-- "SHOW DATABASES" is never a create statement. -/
theorem show_ne_create (db : String) : "SHOW DATABASES" ≠ "create database " ++ db := by
  intro h
  have h2 := congrArg String.length h
  rw [String.length_append] at h2
  have e1 : ("SHOW DATABASES" : String).length = 14 := rfl
  have e2 : ("create database " : String).length = 16 := rfl
  rw [e1, e2] at h2
  omega

/-- C6: autocreate first runs the existence check; on success it issues
zero CREATE statements and returns success, on failure it issues exactly
one CREATE DATABASE statement naming the configured database, succeeding
exactly when that statement succeeds and propagating its failure. -/
theorem autocreateDatabase_statements (hook : InfulxDBHook) :
    (hook.databaseExists.2 = none →
      hook.autocreateDatabase = (["SHOW DATABASES"], none) ∧
      hook.autocreateDatabase.1.count ("create database " ++ hook.database) = 0) ∧
    (∀ e, hook.databaseExists.2 = some e →
      hook.autocreateDatabase.1 = ["SHOW DATABASES", "create database " ++ hook.database] ∧
      hook.autocreateDatabase.1.count ("create database " ++ hook.database) = 1 ∧
      (hook.autocreateDatabase.2 = none ↔
        ∃ rs, (hook.queryDB ("create database " ++ hook.database)).2 = Except.ok rs) ∧
      (∀ e2, (hook.queryDB ("create database " ++ hook.database)).2 = Except.error e2 →
        hook.autocreateDatabase.2 = some e2)) := by
  have hne := show_ne_create hook.database
  constructor
  · intro hex
    have hauto : hook.autocreateDatabase = (["SHOW DATABASES"], none) := by
      simp only [InfulxDBHook.autocreateDatabase, hex]
      rfl
    rw [hauto]
    exact ⟨rfl, by simp [List.count_cons, Ne.symm hne]⟩
  · intro e hex
    cases hcq : (hook.queryDB ("create database " ++ hook.database)).2 with
    | error e2 =>
      have hauto : hook.autocreateDatabase =
          (["SHOW DATABASES", "create database " ++ hook.database], some e2) := by
        simp only [InfulxDBHook.autocreateDatabase, hex]
        rw [hcq]
        rfl
      refine ⟨?_, ?_, ?_, ?_⟩
      · rw [hauto]
      · rw [hauto]
        simp [List.count_cons, Ne.symm hne]
      · rw [hauto]
        simp
      · intro e3 h3
        rw [hauto]
        cases h3
        rfl
    | ok rs =>
      have hauto : hook.autocreateDatabase =
          (["SHOW DATABASES", "create database " ++ hook.database], none) := by
        simp only [InfulxDBHook.autocreateDatabase, hex]
        rw [hcq]
        rfl
      refine ⟨?_, ?_, ?_, ?_⟩
      · rw [hauto]
      · rw [hauto]
        simp [List.count_cons, Ne.symm hne]
      · rw [hauto]
        simp
      · intro e3 h3
        exact Except.noConfusion h3

/-- C6 witness: a client answering SHOW DATABASES with an empty result
list makes the check fail and autocreate issues exactly the CREATE
statement for "logrus" and succeeds; a client whose response contains
"logrus" makes autocreate issue nothing beyond the check. -/
theorem autocreateDatabase_statements_witness :
    (InfulxDBHook.mk ⟨fun _ _ => Except.ok ⟨some [], none⟩, fun _ => none⟩
        "logrus" []).autocreateDatabase.1 = ["SHOW DATABASES", "create database logrus"] ∧
    (InfulxDBHook.mk ⟨fun _ _ => Except.ok ⟨some [], none⟩, fun _ => none⟩
        "logrus" []).autocreateDatabase.2 = none ∧
    (InfulxDBHook.mk
        ⟨fun _ _ => Except.ok ⟨some [⟨some [⟨[[GoValue.str "logrus"]]⟩]⟩], none⟩, fun _ => none⟩
        "logrus" []).autocreateDatabase = (["SHOW DATABASES"], none) := by
  have h2 := (autocreateDatabase_statements
    (InfulxDBHook.mk ⟨fun _ _ => Except.ok ⟨some [], none⟩, fun _ => none⟩ "logrus" [])).2
    "Missing results from InfluxDB query response" rfl
  have h1 := (autocreateDatabase_statements
    (InfulxDBHook.mk
      ⟨fun _ _ => Except.ok ⟨some [⟨some [⟨[[GoValue.str "logrus"]]⟩]⟩], none⟩, fun _ => none⟩
      "logrus" [])).1 rfl
  exact ⟨h2.1, h2.2.2.1.mpr ⟨some [], rfl⟩, h1.1⟩

/-- A successful construction run reports the default-substituted
database name and tag map in the returned hook. -/
theorem newInfluxDBHook_ok (env : ConnEnv) (hostname database : String)
    (tags : Option (List (String × String))) (hook : InfulxDBHook)
    (h : NewInfluxDBHook env hostname database tags = Except.ok hook) :
    hook.database = (if database = "" then DefaultDatabase else database) ∧
    hook.tags = tags.getD [] := by
  cases hc : env.newClient hostname with
  | error e => simp [NewInfluxDBHook, hc] at h
  | ok client =>
    cases hp : env.ping client with
    | some e => simp [NewInfluxDBHook, hc, hp] at h
    | none =>
      simp only [NewInfluxDBHook, hc, hp] at h
      split at h
      · exact Except.noConfusion h
      · cases h
        refine ⟨rfl, ?_⟩
        cases tags <;> rfl

/-- C7: both construction entry points substitute defaults: an empty
database argument yields a hook whose database is "logrus", and a nil
tags argument yields a hook whose default tag map is empty. -/
theorem construction_default_substitution (env : ConnEnv) :
    (∀ hostname tags hook,
      NewInfluxDBHook env hostname "" tags = Except.ok hook →
        hook.database = DefaultDatabase) ∧
    (∀ hostname database hook,
      NewInfluxDBHook env hostname database none = Except.ok hook → hook.tags = []) ∧
    (∀ client tags hook,
      NewWithClientInfulxDBHook env client "" tags = Except.ok hook →
        hook.database = DefaultDatabase) ∧
    (∀ client database hook,
      NewWithClientInfulxDBHook env client database none = Except.ok hook →
        hook.tags = []) := by
  have hbase : ∀ hostname database tags hook,
      NewInfluxDBHook env hostname database tags = Except.ok hook →
      hook.database = (if database = "" then DefaultDatabase else database) ∧
      hook.tags = tags.getD [] :=
    fun hostname database tags hook h => newInfluxDBHook_ok env hostname database tags hook h
  refine ⟨fun hostname tags hook h => ?_, fun hostname database hook h => ?_,
    fun client tags hook h => ?_, fun client database hook h => ?_⟩
  · rw [(hbase hostname "" tags hook h).1]
    simp
  · exact (hbase hostname database none hook h).2
  · cases client with
    | none =>
      simp only [NewWithClientInfulxDBHook] at h
      rw [(hbase _ _ _ _ h).1]
      simp [DefaultDatabase]
    | some c =>
      simp only [NewWithClientInfulxDBHook] at h
      cases h
      simp
  · cases client with
    | none =>
      simp only [NewWithClientInfulxDBHook] at h
      exact (hbase _ _ _ _ h).2
    | some c =>
      simp only [NewWithClientInfulxDBHook] at h
      cases h
      rfl

/-- A client whose SHOW DATABASES response contains the string "logrus"
in a series row. -/
def foundClient : Client :=
  ⟨fun _ _ => Except.ok ⟨some [⟨some [⟨[[GoValue.str "logrus"]]⟩]⟩], none⟩, fun _ => none⟩

/-- An environment where client construction and ping both succeed and
the resulting client is `foundClient`. -/
def envOk : ConnEnv :=
  ⟨fun _ => Except.ok foundClient, fun _ => none⟩

/-- C7 witness: with an environment whose client construction and ping
succeed and whose query response contains "logrus", both entry points
called with an empty database and nil tags return hooks carrying the
default database name and an empty tag map. -/
theorem construction_default_substitution_witness :
    (∃ hook, NewInfluxDBHook envOk DefaultHost "" none = Except.ok hook ∧
      hook.database = DefaultDatabase ∧ hook.tags = []) ∧
    (∃ hook, NewWithClientInfulxDBHook envOk none "" none = Except.ok hook ∧
      hook.database = DefaultDatabase ∧ hook.tags = []) := by
  have h1 : NewInfluxDBHook envOk DefaultHost "" none =
      Except.ok ⟨foundClient, DefaultDatabase, []⟩ := rfl
  have h2 : NewWithClientInfulxDBHook envOk none "" none =
      Except.ok ⟨foundClient, DefaultDatabase, []⟩ := rfl
  exact ⟨⟨_, h1, (construction_default_substitution envOk).1 DefaultHost none _ h1,
      (construction_default_substitution envOk).2.1 DefaultHost "" _ h1⟩,
    ⟨_, h2, (construction_default_substitution envOk).2.2.1 none none _ h2,
      (construction_default_substitution envOk).2.2.2 none "" _ h2⟩⟩

end LogrusInfluxdb
